import Mathlib

/-!
# Geolocation history app (`src/App.js`)

A shallow embedding of the `App` component: its three pieces of UI state, the
two handlers `getLocation` and `saveLocationToFile`, and the platform services
the handlers call (clock, permissions, filesystem, media library), followed by
the properties of the handlers.
-/

namespace App

/-! ## The clock: `new Date().toISOString()` -/

/-- Milliseconds in a day (ECMAScript `msPerDay`). -/
def msPerDay : Int := 86400000

/-- Modelled from the spec: the platform built-in `Day(t)`, the day number of a
time value `t` (milliseconds since the epoch). -/
def Day (t : Int) : Int := t / msPerDay

/-- Modelled from the spec: the platform built-in `DayFromYear(y)`, the day
number of the first day of year `y`. -/
def DayFromYear (y : Int) : Int :=
  365 * (y - 1970) + (y - 1969) / 4 - (y - 1901) / 100 + (y - 1601) / 400

/-- Downward search for the last year that starts on or before `day`. -/
def yearSearch : Nat → Int → Int → Int
  | 0, y, _ => y
  | fuel + 1, y, day => if DayFromYear y ≤ day then y else yearSearch fuel (y - 1) day

/-- An upper estimate of the year containing `day`. -/
def yearHi (day : Int) : Int :=
  if 0 ≤ day then 1970 + day / 365 else 1970 + day / 366

/-- A lower estimate of the year containing `day`. -/
def yearLo (day : Int) : Int :=
  if 0 ≤ day then 1970 + day / 366 else 1970 + day / 365

/-- Modelled from the spec: the platform built-in `YearFromTime(t)`, the largest
year `y` whose first day is not after `t`. -/
def YearFromTime (t : Int) : Int :=
  yearSearch (yearHi (Day t) - yearLo (Day t)).toNat (yearHi (Day t)) (Day t)

/-- Number of extra days (0 or 1) of the year `y` (ECMAScript `InLeapYear`). -/
def leapDays (y : Int) : Int :=
  if y % 4 ≠ 0 then 0 else if y % 100 ≠ 0 then 1 else if y % 400 ≠ 0 then 0 else 1

/-- Modelled from the spec: the platform built-in `InLeapYear(t)`. -/
def InLeapYear (t : Int) : Int := leapDays (YearFromTime t)

/-- Modelled from the spec: the platform built-in `DayWithinYear(t)`. -/
def DayWithinYear (t : Int) : Int := Day t - DayFromYear (YearFromTime t)

/-- The month (0 = January) of day `d` of a year with `leap` extra days. -/
def monthOfDay (d leap : Int) : Int :=
  if d < 31 then 0
  else if d < 59 + leap then 1
  else if d < 90 + leap then 2
  else if d < 120 + leap then 3
  else if d < 151 + leap then 4
  else if d < 181 + leap then 5
  else if d < 212 + leap then 6
  else if d < 243 + leap then 7
  else if d < 273 + leap then 8
  else if d < 304 + leap then 9
  else if d < 334 + leap then 10
  else 11

/-- The day of the month (1-based) of day `d` of a year with `leap` extra days. -/
def dateOfDay (d leap : Int) : Int :=
  match monthOfDay d leap with
  | 0 => d + 1
  | 1 => d - 30
  | 2 => d - 58 - leap
  | 3 => d - 89 - leap
  | 4 => d - 119 - leap
  | 5 => d - 150 - leap
  | 6 => d - 180 - leap
  | 7 => d - 211 - leap
  | 8 => d - 242 - leap
  | 9 => d - 272 - leap
  | 10 => d - 303 - leap
  | _ => d - 333 - leap

/-- Modelled from the spec: the platform built-in `MonthFromTime(t)`. -/
def MonthFromTime (t : Int) : Int := monthOfDay (DayWithinYear t) (InLeapYear t)

/-- Modelled from the spec: the platform built-in `DateFromTime(t)`. -/
def DateFromTime (t : Int) : Int := dateOfDay (DayWithinYear t) (InLeapYear t)

/-- Modelled from the spec: the platform built-in `HourFromTime(t)`. -/
def HourFromTime (t : Int) : Int := t / 3600000 % 24

/-- Modelled from the spec: the platform built-in `MinFromTime(t)`. -/
def MinFromTime (t : Int) : Int := t / 60000 % 60

/-- Modelled from the spec: the platform built-in `SecFromTime(t)`. -/
def SecFromTime (t : Int) : Int := t / 1000 % 60

/-- Modelled from the spec: the platform built-in `msFromTime(t)`. -/
def msFromTime (t : Int) : Int := t % 1000

/-- The character of the decimal digit `d`. -/
def digitChar (d : Nat) : Char := Char.ofNat (48 + d % 10)

/-- Two decimal digits, zero padded. -/
def pad2 (n : Nat) : List Char := [digitChar (n / 10), digitChar n]

/-- Three decimal digits, zero padded. -/
def pad3 (n : Nat) : List Char := [digitChar (n / 100), digitChar (n / 10), digitChar n]

/-- Four decimal digits, zero padded. -/
def pad4 (n : Nat) : List Char :=
  [digitChar (n / 1000), digitChar (n / 100), digitChar (n / 10), digitChar n]

/-- Six decimal digits, zero padded. -/
def pad6 (n : Nat) : List Char :=
  [digitChar (n / 100000), digitChar (n / 10000), digitChar (n / 1000),
   digitChar (n / 100), digitChar (n / 10), digitChar n]

/-- The year of the date-time string format: four digits for the years 0 to
9999, otherwise a sign and six digits. -/
def yearChars (y : Int) : List Char :=
  if 0 ≤ y ∧ y ≤ 9999 then pad4 y.toNat
  else (if y < 0 then '-' else '+') :: pad6 y.natAbs

/-- The characters of `YYYY-MM-DDTHH:mm:ss.sssZ` for the time value `t`. -/
def isoChars (t : Int) : List Char :=
  yearChars (YearFromTime t) ++
    ('-' :: pad2 (MonthFromTime t + 1).toNat ++
    ('-' :: pad2 (DateFromTime t).toNat ++
    ('T' :: pad2 (HourFromTime t).toNat ++
    (':' :: pad2 (MinFromTime t).toNat ++
    (':' :: pad2 (SecFromTime t).toNat ++
    ('.' :: pad3 (msFromTime t).toNat ++ ['Z']))))))

/-- Modelled from the spec: the platform built-in `Date.prototype.toISOString`
on a valid time value `t` (milliseconds since the epoch, UTC). -/
def toISOString (t : Int) : String := String.mk (isoChars t)

/-- The replacement of one character under `/:/g -> "-"`. -/
def colonToHyphen (c : Char) : Char := if c = ':' then '-' else c

/-- The replacement `.replace(/:/g, "-")`: every colon becomes a hyphen. -/
def replaceColons (s : String) : String := String.mk (s.data.map colonToHyphen)

/-- The export file name computed by `saveLocationToFile` at the instant `now`
(`src/App.js`, line 71). -/
def fileName (now : Int) : String :=
  "geolocation_" ++ replaceColons (toISOString now) ++ ".txt"

/-- The time values a date can hold: at most 8.64e15 ms from the epoch. -/
def validTime (t : Int) : Prop := -8640000000000000 ≤ t ∧ t ≤ 8640000000000000

instance (t : Int) : Decidable (validTime t) := by unfold validTime; infer_instance

/-! ## Data model -/

/-- A field of the reported coordinates: a number, or `null` when the platform
has no value for it. -/
inductive JSField (ν : Type) where
  | null : JSField ν
  | number (x : ν) : JSField ν
  deriving DecidableEq, Repr

/-- The string a template literal substitutes for a coordinate field, given the
platform's rendering of numbers. -/
def JSField.render {ν : Type} (numberToString : ν → String) : JSField ν → String
  | .null => "null"
  | .number x => numberToString x

/-- The `coords` object of a position fix. -/
structure Coords (ν : Type) where
  latitude : JSField ν
  longitude : JSField ν
  altitude : JSField ν
  accuracy : JSField ν
  speed : JSField ν
  heading : JSField ν
  deriving DecidableEq, Repr

/-- The object `Location.getCurrentPositionAsync` resolves to. -/
structure LocationObject (ν : Type) where
  coords : Coords ν
  timestamp : ν
  deriving DecidableEq, Repr

/-- An entry of the history: `{ ...currentLocation, timestamp }`, the fix with
its `timestamp` overwritten by the ISO string of the capture instant. -/
structure LocationEntry (ν : Type) where
  coords : Coords ν
  timestamp : String
  deriving DecidableEq, Repr

/-- The three `useState` cells of `App`. -/
structure State (ν : Type) where
  location : Option (LocationObject ν)
  errorMsg : Option String
  locationHistory : List (LocationEntry ν)
  deriving DecidableEq, Repr

/-- The state of a freshly mounted component. -/
def State.initial {ν : Type} : State ν :=
  { location := none, errorMsg := none, locationHistory := [] }

/-- The outcome of awaiting a platform call: it resolves to a value, or rejects
with an error whose `message` is the given string. -/
abbrev Awaited (α : Type) := Except String α

/-! ## `getLocation` -/

/-- What the platform answers during one run of `getLocation`. -/
structure AcquireEnv (ν : Type) where
  /-- The `status` of `Location.requestForegroundPermissionsAsync()`. -/
  permission : Awaited String
  /-- The outcome of `Location.getCurrentPositionAsync`. -/
  position : Awaited (LocationObject ν)
  /-- The time value of `new Date()`. -/
  now : Int

/-- The handler `getLocation` (`src/App.js`, lines 13-41). -/
def getLocation {ν : Type} (s : State ν) (env : AcquireEnv ν) : State ν :=
  match env.permission with
  | .error message => { s with errorMsg := some ("Could not get location: " ++ message) }
  | .ok status =>
    if status ≠ "granted" then
      { s with errorMsg := some "Permission to access location was denied" }
    else
      match env.position with
      | .error message => { s with errorMsg := some ("Could not get location: " ++ message) }
      | .ok currentLocation =>
        let timestamp := toISOString env.now
        let newLocationEntry : LocationEntry ν :=
          { coords := currentLocation.coords, timestamp := timestamp }
        { s with
          location := some currentLocation
          locationHistory := s.locationHistory ++ [newLocationEntry] }

/-! ## The platform seen by `saveLocationToFile` -/

/-- A media-library asset handle. -/
structure Asset where
  id : Nat
  uri : String
  deriving DecidableEq, Repr

/-- A media-library album. -/
structure Album where
  id : Nat
  title : String
  assets : List Asset
  deriving DecidableEq, Repr

/-- The media library: its assets and its albums. -/
structure MediaLibrary where
  assets : List Asset
  albums : List Album
  deriving DecidableEq, Repr

/-- A call the export handler makes to the platform. -/
inductive Call where
  | alert (title message : String)
  | requestPermissionsAsync
  | writeAsStringAsync (fileUri contents : String)
  | createAssetAsync (fileUri : String)
  | getAlbumAsync (title : String)
  | createAlbumAsync (title : String) (asset : Asset) (copyAsset : Bool)
  | addAssetsToAlbumAsync (assets : List Asset) (album : Album) (copyAsset : Bool)
  deriving DecidableEq, Repr

/-- Everything outside the component that an export can touch: the files of
the document directory, the media library, and the calls made so far. -/
structure World where
  files : List (String × String)
  media : MediaLibrary
  calls : List Call
  deriving DecidableEq, Repr

/-- What the platform answers during one run of `saveLocationToFile`: the
permission response, the clock, the document directory, and for each service
call whether it rejects (and with which message). -/
structure ExportEnv where
  /-- The `granted` flag of `MediaLibrary.requestPermissionsAsync()`. -/
  permission : Awaited Bool
  /-- The time value of `new Date()`. -/
  now : Int
  /-- The value of `FileSystem.documentDirectory`. -/
  documentDirectory : String
  writeError : Option String
  createAssetError : Option String
  getAlbumError : Option String
  createAlbumError : Option String
  addAssetsError : Option String

/-- Record a call. -/
def World.call (w : World) (c : Call) : World := { w with calls := w.calls ++ [c] }

/-- Modelled from the spec: `Alert.alert(title, message)`. -/
def alert (title message : String) (w : World) : World := w.call (.alert title message)

/-- Modelled from the spec: `requestMediaLibraryPermission() -> {granted}`. -/
def requestPermissionsAsync (env : ExportEnv) (w : World) : Awaited Bool × World :=
  (env.permission, w.call .requestPermissionsAsync)

/-- Modelled from the spec: `writeTextFile(path, contents) -> () | throws`; the
contents become the complete contents of the file at that path. -/
def writeAsStringAsync (env : ExportEnv) (fileUri contents : String) (w : World) :
    Awaited Unit × World :=
  match env.writeError with
  | some message => (.error message, w.call (.writeAsStringAsync fileUri contents))
  | none =>
    (.ok (),
      { w.call (.writeAsStringAsync fileUri contents) with
        files := (fileUri, contents) :: w.files.filter (fun f => f.1 ≠ fileUri) })

/-- Modelled from the spec: `createAsset(path) -> AssetHandle`; the file is
registered as a new asset of the library. -/
def createAssetAsync (env : ExportEnv) (fileUri : String) (w : World) : Awaited Asset × World :=
  match env.createAssetError with
  | some message => (.error message, w.call (.createAssetAsync fileUri))
  | none =>
    let asset : Asset := { id := w.media.assets.length, uri := fileUri }
    (.ok asset,
      { w.call (.createAssetAsync fileUri) with
        media := { w.media with assets := w.media.assets ++ [asset] } })

/-- Modelled from the spec: `getAlbum(name) -> AlbumHandle | null`. -/
def getAlbumAsync (env : ExportEnv) (title : String) (w : World) :
    Awaited (Option Album) × World :=
  match env.getAlbumError with
  | some message => (.error message, w.call (.getAlbumAsync title))
  | none => (.ok (w.media.albums.find? (fun a => a.title = title)), w.call (.getAlbumAsync title))

/-- Modelled from the spec: `createAlbum(name, seedAsset) -> AlbumHandle`; a new
album holding the seed asset is added to the library. -/
def createAlbumAsync (env : ExportEnv) (title : String) (asset : Asset) (copyAsset : Bool)
    (w : World) : Awaited Album × World :=
  match env.createAlbumError with
  | some message => (.error message, w.call (.createAlbumAsync title asset copyAsset))
  | none =>
    let album : Album := { id := w.media.albums.length, title := title, assets := [asset] }
    (.ok album,
      { w.call (.createAlbumAsync title asset copyAsset) with
        media := { w.media with albums := w.media.albums ++ [album] } })

/-- Modelled from the spec: `addAssetsToAlbum(assets, album) -> () | throws`;
the assets are appended to the album the handle denotes. -/
def addAssetsToAlbumAsync (env : ExportEnv) (assets : List Asset) (album : Album)
    (copyAsset : Bool) (w : World) : Awaited Unit × World :=
  match env.addAssetsError with
  | some message => (.error message, w.call (.addAssetsToAlbumAsync assets album copyAsset))
  | none =>
    (.ok (),
      { w.call (.addAssetsToAlbumAsync assets album copyAsset) with
        media := { w.media with
          albums := w.media.albums.map (fun a =>
            if a.id = album.id then { a with assets := a.assets ++ assets } else a) } })

/-! ## `saveLocationToFile` -/

/-- The text of one history entry (`src/App.js`, lines 58-67). -/
def locationBlock {ν : Type} (numberToString : ν → String) (index : Nat)
    (loc : LocationEntry ν) : String :=
  ("Location #" ++ toString (index + 1) ++ " (" ++ loc.timestamp ++ "):\n") ++
  ("Latitude: " ++ loc.coords.latitude.render numberToString ++ "\n") ++
  ("Longitude: " ++ loc.coords.longitude.render numberToString ++ "\n") ++
  ("Altitude: " ++ loc.coords.altitude.render numberToString ++ "\n") ++
  ("Accuracy: " ++ loc.coords.accuracy.render numberToString ++ " meters\n") ++
  ("Speed: " ++ loc.coords.speed.render numberToString ++ "\n") ++
  ("Heading: " ++ loc.coords.heading.render numberToString ++ "\n") ++
  "------------------------------\n"

/-- The export text `locationHistory.map(...).join("\n")` (`src/App.js`,
lines 56-69). -/
def locationText {ν : Type} (numberToString : ν → String)
    (locationHistory : List (LocationEntry ν)) : String :=
  "\n".intercalate (locationHistory.mapIdx (fun index loc => locationBlock numberToString index loc))

/-- The `catch` block of `saveLocationToFile` (`src/App.js`, lines 86-89). -/
def catchExport (message : String) (w : World) : World :=
  alert "Error" ("Failed to save location data: " ++ message) w

/-- The handler `saveLocationToFile` (`src/App.js`, lines 43-90). It calls no
state setter, so only the world changes. -/
def saveLocationToFile {ν : Type} (numberToString : ν → String)
    (locationHistory : List (LocationEntry ν)) (env : ExportEnv) (w : World) : World :=
  if locationHistory.length = 0 then
    alert "Error" "No location data to save" w
  else
    match requestPermissionsAsync env w with
    | (.error message, w) => catchExport message w
    | (.ok granted, w) =>
      if !granted then
        alert "Permission Denied" "Permission to access media library is required!" w
      else
        let locationText := locationText numberToString locationHistory
        let fileName := fileName env.now
        let fileUri := env.documentDirectory ++ fileName
        match writeAsStringAsync env fileUri locationText w with
        | (.error message, w) => catchExport message w
        | (.ok _, w) =>
          match createAssetAsync env fileUri w with
          | (.error message, w) => catchExport message w
          | (.ok asset, w) =>
            match getAlbumAsync env "Download" w with
            | (.error message, w) => catchExport message w
            | (.ok album, w) =>
              match album with
              | none =>
                match createAlbumAsync env "Download" asset false w with
                | (.error message, w) => catchExport message w
                | (.ok _, w) => alert "Success" "File saved to Downloads folder!" w
              | some album =>
                match addAssetsToAlbumAsync env [asset] album false w with
                | (.error message, w) => catchExport message w
                | (.ok _, w) => alert "Success" "File saved to Downloads folder!" w

/-! ## The component as a transition system -/

/-- A user action together with what the platform answers while it runs. -/
inductive Action (ν : Type) where
  | getLocation (env : AcquireEnv ν)
  | saveLocationToFile (env : ExportEnv)

/-- One user action, run to completion. -/
def step {ν : Type} (numberToString : ν → String) :
    State ν × World → Action ν → State ν × World
  | (s, w), .getLocation env => (getLocation s env, w)
  | (s, w), .saveLocationToFile env =>
    (s, saveLocationToFile numberToString s.locationHistory env w)

/-- A sequence of user actions, each run to completion before the next. -/
def run {ν : Type} (numberToString : ν → String) (init : State ν × World)
    (actions : List (Action ν)) : State ν × World :=
  actions.foldl (step numberToString) init

/-! ## Vocabulary of the properties -/

/-- The history entry an action captures: the fix of a successful acquisition
(permission granted and the position request resolved), stamped with the ISO
string of the capture instant; nothing for any other action. -/
def capturedEntry {ν : Type} : Action ν → Option (LocationEntry ν)
  | .getLocation env =>
    match env.permission, env.position with
    | .ok status, .ok currentLocation =>
      if status = "granted" then
        some { coords := currentLocation.coords, timestamp := toISOString env.now }
      else none
    | _, _ => none
  | .saveLocationToFile _ => none

/-- The lines of block `n` of the export file format, for the entry `e`. -/
def exportBlockLines {ν : Type} (numberToString : ν → String) (n : Nat)
    (e : LocationEntry ν) : List String :=
  ["Location #" ++ toString n ++ " (" ++ e.timestamp ++ "):",
   "Latitude: " ++ e.coords.latitude.render numberToString,
   "Longitude: " ++ e.coords.longitude.render numberToString,
   "Altitude: " ++ e.coords.altitude.render numberToString,
   "Accuracy: " ++ e.coords.accuracy.render numberToString ++ " meters",
   "Speed: " ++ e.coords.speed.render numberToString,
   "Heading: " ++ e.coords.heading.render numberToString,
   "------------------------------"]

/-- Lines written out one after the other, each ended by a line feed. -/
def unlines (ls : List String) : String := String.join (ls.map (fun l => l ++ "\n"))

/-- The URI the export writes to. -/
def exportUri (env : ExportEnv) : String := env.documentDirectory ++ fileName env.now

/-- The asset handle a successful `createAssetAsync` returns in the world `w`. -/
def newAsset (env : ExportEnv) (w : World) : Asset :=
  { id := w.media.assets.length, uri := exportUri env }

/-- The album `getAlbumAsync('Download')` finds in the world `w`, if any. -/
def downloadAlbum (w : World) : Option Album :=
  w.media.albums.find? (fun a => a.title = "Download")

/-- The album call of an export in the world `w`: creation when there is no
"Download" album, addition to it otherwise. -/
def albumCall (env : ExportEnv) (w : World) : Call :=
  match downloadAlbum w with
  | none => .createAlbumAsync "Download" (newAsset env w) false
  | some album => .addAssetsToAlbumAsync [newAsset env w] album false

/-- Whether the album call of an export in the world `w` rejects. -/
def albumError (env : ExportEnv) (w : World) : Option String :=
  match downloadAlbum w with
  | none => env.createAlbumError
  | some _ => env.addAssetsError

/-- The alert of the `catch` block for an error with the given message. -/
def failureAlert (message : String) : Call :=
  .alert "Error" ("Failed to save location data: " ++ message)

/-- The alert that reports a completed export. -/
def successAlert : Call := .alert "Success" "File saved to Downloads folder!"

/-- A sample fix, with no altitude. -/
def sampleFix : LocationObject Int :=
  { coords := { latitude := .number 52, longitude := .number 13, altitude := .null,
                accuracy := .number 5, speed := .number 0, heading := .null },
    timestamp := 1700000000000 }

/-- A sample history entry. -/
def sampleEntry : LocationEntry Int :=
  { coords := sampleFix.coords, timestamp := "1970-01-01T00:00:00.000Z" }

/-- A world with no files, no assets, no albums and no calls made. -/
def emptyWorld : World := { files := [], media := { assets := [], albums := [] }, calls := [] }

/-- A world whose media library already has a "Download" album holding one
asset. -/
def downloadWorld : World :=
  { files := [],
    media := { assets := [⟨0, "file:///old.txt"⟩],
               albums := [⟨0, "Camera", []⟩, ⟨1, "Download", [⟨0, "file:///old.txt"⟩]⟩] },
    calls := [] }

/-- A platform on which every export call succeeds and permission is granted. -/
def okEnv : ExportEnv :=
  { permission := .ok true, now := 0, documentDirectory := "file:///docs/",
    writeError := none, createAssetError := none, getAlbumError := none,
    createAlbumError := none, addAssetsError := none }

/-! ## Properties of `getLocation` and of the history -/

theorem step_history_prefix {ν : Type} (numberToString : ν → String) (sw : State ν × World)
    (a : Action ν) :
    (step numberToString sw a).1.locationHistory =
      sw.1.locationHistory ++ (capturedEntry a).toList := by
  obtain ⟨s, w⟩ := sw
  cases a with
  | getLocation env =>
    obtain ⟨permission, position, now⟩ := env
    cases permission with
    | error m => simp [step, getLocation, capturedEntry]
    | ok status =>
      by_cases hs : status = "granted"
      · cases position with
        | error m => simp [step, getLocation, capturedEntry, hs]
        | ok p => simp [step, getLocation, capturedEntry, hs]
      · cases position <;> simp [step, getLocation, capturedEntry, hs]
  | saveLocationToFile env => simp [step, capturedEntry]

theorem run_history {ν : Type} (numberToString : ν → String) (actions : List (Action ν)) :
    ∀ sw : State ν × World,
      (run numberToString sw actions).1.locationHistory =
        sw.1.locationHistory ++ actions.filterMap capturedEntry := by
  induction actions with
  | nil => intro sw; simp [run]
  | cons a rest ih =>
    intro sw
    have h := ih (step numberToString sw a)
    simp only [run, List.foldl_cons] at h ⊢
    rw [h, step_history_prefix]
    cases hc : capturedEntry a <;> simp [List.filterMap_cons, hc]

/-- C2. Starting from the empty history, after any sequence of user actions the
history is the list of entries captured by the successful acquisitions, in
capture order; its length is the number of successful acquisitions; and the
history after any initial part of the sequence is a prefix of the final one
(nothing is removed, reordered or changed). -/
theorem history_is_capture_log {ν : Type} (numberToString : ν → String) (w : World)
    (actions : List (Action ν)) :
    (run numberToString (State.initial, w) actions).1.locationHistory
        = actions.filterMap capturedEntry ∧
    (run numberToString (State.initial, w) actions).1.locationHistory.length
        = actions.countP (fun a => (capturedEntry a).isSome) ∧
    ∀ k : Nat,
      (run numberToString (State.initial, w) (actions.take k)).1.locationHistory <+:
        (run numberToString (State.initial, w) actions).1.locationHistory := by
  have key : ∀ l : List (Action ν),
      (run numberToString (State.initial, w) l).1.locationHistory = l.filterMap capturedEntry := by
    intro l
    rw [run_history]
    simp [State.initial]
  refine ⟨key actions, ?_, ?_⟩
  · rw [key, List.length_filterMap_eq_countP]
  · intro k
    rw [key, key]
    conv => rhs; rw [← List.take_append_drop k actions, List.filterMap_append]
    exact List.prefix_append _ _

theorem history_is_capture_log_witness :
    (run (fun x : Int => toString x) (State.initial, emptyWorld)
        [.getLocation ⟨.ok "granted", .ok sampleFix, 0⟩,
         .getLocation ⟨.ok "denied", .ok sampleFix, 1⟩,
         .saveLocationToFile okEnv,
         .getLocation ⟨.ok "granted", .error "timeout", 2⟩,
         .getLocation ⟨.ok "granted", .ok sampleFix, 3⟩]).1.locationHistory
      = [⟨sampleFix.coords, "1970-01-01T00:00:00.000Z"⟩,
         ⟨sampleFix.coords, "1970-01-01T00:00:00.003Z"⟩] := by
  rw [(history_is_capture_log (fun x : Int => toString x) emptyWorld _).1]
  decide

/-- C3. A failed acquisition (permission not granted, or the permission or
position request rejecting) leaves the history and the displayed position
unchanged and sets the error message, whatever it was before, to the message of
the failure. -/
theorem getLocation_failure {ν : Type} (s : State ν) (env : AcquireEnv ν)
    (hfail : ¬ (env.permission = .ok "granted" ∧ ∃ p, env.position = .ok p)) :
    (getLocation s env).locationHistory = s.locationHistory ∧
    (getLocation s env).location = s.location ∧
    ((∃ status, env.permission = .ok status ∧ status ≠ "granted" ∧
        (getLocation s env).errorMsg = some "Permission to access location was denied") ∨
     (∃ message, (env.permission = .error message ∨
          (env.permission = .ok "granted" ∧ env.position = .error message)) ∧
        (getLocation s env).errorMsg = some ("Could not get location: " ++ message))) := by
  obtain ⟨permission, position, now⟩ := env
  cases permission with
  | error m => simp [getLocation]
  | ok status =>
    by_cases hs : status = "granted"
    · subst hs
      cases position with
      | error m => simp [getLocation]
      | ok p => exact absurd ⟨rfl, p, rfl⟩ hfail
    · simp [getLocation, hs]

theorem getLocation_failure_witness :
    (getLocation (⟨some sampleFix, some "old", [sampleEntry]⟩ : State Int)
        ⟨.ok "denied", .ok sampleFix, 0⟩).locationHistory = [sampleEntry] ∧
    (getLocation (⟨some sampleFix, some "old", [sampleEntry]⟩ : State Int)
        ⟨.ok "denied", .ok sampleFix, 0⟩).errorMsg
      = some "Permission to access location was denied" := by
  have h := getLocation_failure (⟨some sampleFix, some "old", [sampleEntry]⟩ : State Int)
    ⟨.ok "denied", .ok sampleFix, 0⟩ (by simp)
  exact ⟨h.1, by decide⟩

/-- C10, as the code has it. A successful acquisition leaves the error message
as it was (it is not cleared), and an export action leaves the whole UI state,
the error message included, as it was. -/
theorem errorMsg_kept {ν : Type} (numberToString : ν → String) (s : State ν) (w : World)
    (p : LocationObject ν) (now : Int) (env : ExportEnv) :
    (getLocation s ⟨.ok "granted", .ok p, now⟩).errorMsg = s.errorMsg ∧
    (step numberToString (s, w) (.saveLocationToFile env)).1 = s := by
  simp [getLocation, step]

/-- C10 fails as stated: with an error message on display, a successful
acquisition does not unset it. -/
theorem errorMsg_not_cleared :
    (getLocation (⟨none, some "Permission to access location was denied", []⟩ : State Int)
        ⟨.ok "granted", .ok sampleFix, 0⟩).errorMsg
      = some "Permission to access location was denied" ∧
    (getLocation (⟨none, some "Permission to access location was denied", []⟩ : State Int)
        ⟨.ok "granted", .ok sampleFix, 0⟩).errorMsg ≠ none ∧
    (getLocation (⟨none, some "Permission to access location was denied", []⟩ : State Int)
        ⟨.ok "granted", .ok sampleFix, 0⟩).locationHistory.length = 1 := by
  decide

/-! ## Properties of `saveLocationToFile` -/

/-- C4. With an empty history the export makes exactly one platform call, the
alert "No location data to save": no permission request, no file write, no
asset or album call; files and media library are untouched. -/
theorem saveLocationToFile_empty {ν : Type} (numberToString : ν → String) (env : ExportEnv)
    (w : World) :
    (saveLocationToFile numberToString ([] : List (LocationEntry ν)) env w).calls
        = w.calls ++ [Call.alert "Error" "No location data to save"] ∧
    (saveLocationToFile numberToString ([] : List (LocationEntry ν)) env w).files = w.files ∧
    (saveLocationToFile numberToString ([] : List (LocationEntry ν)) env w).media = w.media := by
  simp [saveLocationToFile, alert, World.call]

/-- C5. With a non-empty history and the media permission answered "not
granted", the export makes exactly two platform calls, the permission request
and the alert "Permission Denied": no file is written and no asset or album
call is made; files and media library are untouched. -/
theorem saveLocationToFile_denied {ν : Type} (numberToString : ν → String)
    (locationHistory : List (LocationEntry ν)) (env : ExportEnv) (w : World)
    (hne : locationHistory ≠ []) (hperm : env.permission = .ok false) :
    (saveLocationToFile numberToString locationHistory env w).calls
        = w.calls ++ [Call.requestPermissionsAsync,
            Call.alert "Permission Denied" "Permission to access media library is required!"] ∧
    (∀ fileUri contents, Call.writeAsStringAsync fileUri contents ∉
        (saveLocationToFile numberToString locationHistory env w).calls.drop w.calls.length) ∧
    (saveLocationToFile numberToString locationHistory env w).files = w.files ∧
    (saveLocationToFile numberToString locationHistory env w).media = w.media := by
  have hlen : locationHistory.length ≠ 0 := by
    intro h; exact hne (List.length_eq_zero.mp h)
  simp [saveLocationToFile, hlen, requestPermissionsAsync, hperm, alert, World.call]

theorem saveLocationToFile_denied_witness :
    (saveLocationToFile (fun x : Int => toString x) [sampleEntry]
        { okEnv with permission := .ok false } emptyWorld).calls
      = [Call.requestPermissionsAsync,
          Call.alert "Permission Denied" "Permission to access media library is required!"] ∧
    (saveLocationToFile (fun x : Int => toString x) [sampleEntry]
        { okEnv with permission := .ok false } emptyWorld).files = [] :=
  have h := saveLocationToFile_denied (fun x : Int => toString x) [sampleEntry]
    { okEnv with permission := .ok false } emptyWorld (by decide) rfl
  ⟨h.1, h.2.2.1⟩

/-- C9. With a non-empty history and the media permission granted, the calls of
an export are pairwise distinct (nothing is retried) and stop at the first step
that rejects: that step is followed only by the alert carrying the platform's
message, and the success alert is shown exactly when no step rejected. -/
theorem saveLocationToFile_abort {ν : Type} (numberToString : ν → String)
    (locationHistory : List (LocationEntry ν)) (env : ExportEnv) (w : World)
    (hne : locationHistory ≠ []) (hperm : env.permission = .ok true) :
    ∃ tr : List Call,
      (saveLocationToFile numberToString locationHistory env w).calls = w.calls ++ tr ∧
      tr.Nodup ∧
      (successAlert ∈ tr ↔
        env.writeError = none ∧ env.createAssetError = none ∧ env.getAlbumError = none ∧
          albumError env w = none) ∧
      (∀ m, env.writeError = some m →
        tr = [.requestPermissionsAsync,
              .writeAsStringAsync (exportUri env) (locationText numberToString locationHistory),
              failureAlert m]) ∧
      (∀ m, env.writeError = none → env.createAssetError = some m →
        tr = [.requestPermissionsAsync,
              .writeAsStringAsync (exportUri env) (locationText numberToString locationHistory),
              .createAssetAsync (exportUri env),
              failureAlert m]) ∧
      (∀ m, env.writeError = none → env.createAssetError = none → env.getAlbumError = some m →
        tr = [.requestPermissionsAsync,
              .writeAsStringAsync (exportUri env) (locationText numberToString locationHistory),
              .createAssetAsync (exportUri env),
              .getAlbumAsync "Download",
              failureAlert m]) ∧
      (∀ m, env.writeError = none → env.createAssetError = none → env.getAlbumError = none →
          albumError env w = some m →
        tr = [.requestPermissionsAsync,
              .writeAsStringAsync (exportUri env) (locationText numberToString locationHistory),
              .createAssetAsync (exportUri env),
              .getAlbumAsync "Download",
              albumCall env w,
              failureAlert m]) ∧
      (env.writeError = none → env.createAssetError = none → env.getAlbumError = none →
          albumError env w = none →
        tr = [.requestPermissionsAsync,
              .writeAsStringAsync (exportUri env) (locationText numberToString locationHistory),
              .createAssetAsync (exportUri env),
              .getAlbumAsync "Download",
              albumCall env w,
              successAlert]) := by
  have hlen : locationHistory.length ≠ 0 := by
    intro h; exact hne (List.length_eq_zero.mp h)
  obtain ⟨permission, now, dir, we, ce, ge, cae, aae⟩ := env
  simp only at hperm
  subst hperm
  cases we with
  | some m =>
    refine ⟨[.requestPermissionsAsync,
      .writeAsStringAsync (dir ++ fileName now) (locationText numberToString locationHistory),
      failureAlert m], ?_, ?_⟩
    · simp [saveLocationToFile, hlen, requestPermissionsAsync, writeAsStringAsync, catchExport,
        alert, World.call, failureAlert]
    · simp [successAlert, failureAlert, exportUri]
  | none =>
    cases ce with
    | some m =>
      refine ⟨[.requestPermissionsAsync,
        .writeAsStringAsync (dir ++ fileName now) (locationText numberToString locationHistory),
        .createAssetAsync (dir ++ fileName now), failureAlert m], ?_, ?_⟩
      · simp [saveLocationToFile, hlen, requestPermissionsAsync, writeAsStringAsync,
          createAssetAsync, catchExport, alert, World.call, failureAlert]
      · simp [successAlert, failureAlert, exportUri]
    | none =>
      cases ge with
      | some m =>
        refine ⟨[.requestPermissionsAsync,
          .writeAsStringAsync (dir ++ fileName now) (locationText numberToString locationHistory),
          .createAssetAsync (dir ++ fileName now), .getAlbumAsync "Download",
          failureAlert m], ?_, ?_⟩
        · simp [saveLocationToFile, hlen, requestPermissionsAsync, writeAsStringAsync,
            createAssetAsync, getAlbumAsync, catchExport, alert, World.call, failureAlert]
        · simp [successAlert, failureAlert, exportUri]
      | none =>
        cases hf : w.media.albums.find? (fun a => a.title = "Download") with
        | none =>
          cases cae with
          | some m =>
            refine ⟨[.requestPermissionsAsync,
              .writeAsStringAsync (dir ++ fileName now)
                (locationText numberToString locationHistory),
              .createAssetAsync (dir ++ fileName now), .getAlbumAsync "Download",
              .createAlbumAsync "Download" ⟨w.media.assets.length, dir ++ fileName now⟩ false,
              failureAlert m], ?_, ?_⟩
            · simp [saveLocationToFile, hlen, requestPermissionsAsync, writeAsStringAsync,
                createAssetAsync, getAlbumAsync, createAlbumAsync, catchExport, alert,
                World.call, hf, failureAlert]
            · simp [successAlert, failureAlert, exportUri, albumError, albumCall, downloadAlbum,
                newAsset, hf]
          | none =>
            refine ⟨[.requestPermissionsAsync,
              .writeAsStringAsync (dir ++ fileName now)
                (locationText numberToString locationHistory),
              .createAssetAsync (dir ++ fileName now), .getAlbumAsync "Download",
              .createAlbumAsync "Download" ⟨w.media.assets.length, dir ++ fileName now⟩ false,
              successAlert], ?_, ?_⟩
            · simp [saveLocationToFile, hlen, requestPermissionsAsync, writeAsStringAsync,
                createAssetAsync, getAlbumAsync, createAlbumAsync, catchExport, alert,
                World.call, hf, successAlert]
            · simp [successAlert, failureAlert, exportUri, albumError, albumCall, downloadAlbum,
                newAsset, hf]
        | some al =>
          cases aae with
          | some m =>
            refine ⟨[.requestPermissionsAsync,
              .writeAsStringAsync (dir ++ fileName now)
                (locationText numberToString locationHistory),
              .createAssetAsync (dir ++ fileName now), .getAlbumAsync "Download",
              .addAssetsToAlbumAsync [⟨w.media.assets.length, dir ++ fileName now⟩] al false,
              failureAlert m], ?_, ?_⟩
            · simp [saveLocationToFile, hlen, requestPermissionsAsync, writeAsStringAsync,
                createAssetAsync, getAlbumAsync, addAssetsToAlbumAsync, catchExport, alert,
                World.call, hf, failureAlert]
            · simp [successAlert, failureAlert, exportUri, albumError, albumCall, downloadAlbum,
                newAsset, hf]
          | none =>
            refine ⟨[.requestPermissionsAsync,
              .writeAsStringAsync (dir ++ fileName now)
                (locationText numberToString locationHistory),
              .createAssetAsync (dir ++ fileName now), .getAlbumAsync "Download",
              .addAssetsToAlbumAsync [⟨w.media.assets.length, dir ++ fileName now⟩] al false,
              successAlert], ?_, ?_⟩
            · simp [saveLocationToFile, hlen, requestPermissionsAsync, writeAsStringAsync,
                createAssetAsync, getAlbumAsync, addAssetsToAlbumAsync, catchExport, alert,
                World.call, hf, successAlert]
            · simp [successAlert, failureAlert, exportUri, albumError, albumCall, downloadAlbum,
                newAsset, hf]

theorem saveLocationToFile_abort_witness :
    (saveLocationToFile (fun x : Int => toString x) [sampleEntry]
        { okEnv with writeError := some "disk full" } emptyWorld).calls
      = [Call.requestPermissionsAsync,
         Call.writeAsStringAsync "file:///docs/geolocation_1970-01-01T00-00-00.000Z.txt"
           (locationText (fun x : Int => toString x) [sampleEntry]),
         Call.alert "Error" "Failed to save location data: disk full"] := by
  obtain ⟨tr, h1, _, _, h4, _⟩ := saveLocationToFile_abort (fun x : Int => toString x)
    [sampleEntry] { okEnv with writeError := some "disk full" } emptyWorld (by decide) rfl
  rw [h1, h4 "disk full" rfl]
  decide

theorem find_title_map (title : String) (f : Album → Album) (hf : ∀ a, (f a).title = a.title)
    (albums : List Album) :
    (albums.map f).find? (fun a => a.title = title)
      = (albums.find? (fun a => a.title = title)).map f := by
  induction albums with
  | nil => rfl
  | cons a rest ih =>
    by_cases h : a.title = title
    · simp [List.find?_cons, hf, h]
    · simp [List.find?_cons, hf, h, ih]

/-- C8. In an export that reaches the album step (non-empty history, permission
granted, file written, asset created, album lookup answered): when a "Download"
album exists no album is created, the album keeps every asset it held, and,
the addition not rejecting, its assets are the former ones followed by the new
asset; when no "Download" album exists, the creation not rejecting, the albums
are the former ones followed by one new album named "Download" whose only
asset is the new one. -/
theorem saveLocationToFile_album {ν : Type} (numberToString : ν → String)
    (locationHistory : List (LocationEntry ν)) (env : ExportEnv) (w : World)
    (hne : locationHistory ≠ []) (hperm : env.permission = .ok true)
    (hwrite : env.writeError = none) (hasset : env.createAssetError = none)
    (hget : env.getAlbumError = none) :
    (∀ album, downloadAlbum w = some album →
      (saveLocationToFile numberToString locationHistory env w).media.albums.length
          = w.media.albums.length ∧
      ∃ album', downloadAlbum (saveLocationToFile numberToString locationHistory env w)
            = some album' ∧
        album'.id = album.id ∧ album'.title = "Download" ∧
        (∀ a ∈ album.assets, a ∈ album'.assets) ∧
        (env.addAssetsError = none → album'.assets = album.assets ++ [newAsset env w])) ∧
    (downloadAlbum w = none → env.createAlbumError = none →
      (saveLocationToFile numberToString locationHistory env w).media.albums
        = w.media.albums ++
            [{ id := w.media.albums.length, title := "Download", assets := [newAsset env w] }] ∧
      ((saveLocationToFile numberToString locationHistory env w).media.albums.filter
          (fun a => a.title = "Download")).length = 1) := by
  have hlen : locationHistory.length ≠ 0 := by
    intro h; exact hne (List.length_eq_zero.mp h)
  obtain ⟨permission, now, dir, we, ce, ge, cae, aae⟩ := env
  simp only at hperm hwrite hasset hget
  subst hperm hwrite hasset hget
  constructor
  · intro album hal
    have htitle : album.title = "Download" := by
      have := List.find?_some hal
      simpa using this
    unfold downloadAlbum at hal
    cases aae with
    | some m =>
      have hres : (saveLocationToFile numberToString locationHistory
          ⟨.ok true, now, dir, none, none, none, cae, some m⟩ w).media.albums
            = w.media.albums := by
        simp [saveLocationToFile, hlen, requestPermissionsAsync, writeAsStringAsync,
          createAssetAsync, getAlbumAsync, addAssetsToAlbumAsync, catchExport, alert,
          World.call, hal]
      refine ⟨by rw [hres], album, ?_, rfl, htitle, fun a ha => ha, ?_⟩
      · unfold downloadAlbum; rw [hres]; exact hal
      · intro h; simp at h
    | none =>
      have hres : (saveLocationToFile numberToString locationHistory
          ⟨.ok true, now, dir, none, none, none, cae, none⟩ w).media.albums
            = w.media.albums.map (fun a =>
                if a.id = album.id then
                  { a with assets := a.assets ++ [⟨w.media.assets.length, dir ++ fileName now⟩] }
                else a) := by
        simp [saveLocationToFile, hlen, requestPermissionsAsync, writeAsStringAsync,
          createAssetAsync, getAlbumAsync, addAssetsToAlbumAsync, catchExport, alert,
          World.call, hal]
      refine ⟨by rw [hres, List.length_map],
        { album with assets := album.assets ++ [⟨w.media.assets.length, dir ++ fileName now⟩] },
        ?_, rfl, htitle, ?_, ?_⟩
      · unfold downloadAlbum
        rw [hres, find_title_map, hal]
        · simp
        · intro a; split <;> rfl
      · intro a ha; simp [ha]
      · intro _; simp [newAsset, exportUri]
  · intro hnone hc
    simp only at hc
    subst hc
    unfold downloadAlbum at hnone
    have hres : (saveLocationToFile numberToString locationHistory
        ⟨.ok true, now, dir, none, none, none, none, aae⟩ w).media.albums
          = w.media.albums ++ [⟨w.media.albums.length, "Download",
              [⟨w.media.assets.length, dir ++ fileName now⟩]⟩] := by
      simp [saveLocationToFile, hlen, requestPermissionsAsync, writeAsStringAsync,
        createAssetAsync, getAlbumAsync, createAlbumAsync, catchExport, alert,
        World.call, hnone]
    refine ⟨by rw [hres]; simp [newAsset, exportUri], ?_⟩
    rw [hres, List.filter_append]
    have : w.media.albums.filter (fun a => a.title = "Download") = [] := by
      rw [List.filter_eq_nil_iff]
      intro a ha
      have := List.find?_eq_none.mp hnone a ha
      simpa using this
    simp [this]

theorem saveLocationToFile_album_witness :
    (∃ album', downloadAlbum (saveLocationToFile (fun x : Int => toString x) [sampleEntry]
        okEnv downloadWorld) = some album' ∧
      album'.assets = [⟨0, "file:///old.txt"⟩,
        ⟨1, "file:///docs/geolocation_1970-01-01T00-00-00.000Z.txt"⟩]) ∧
    (saveLocationToFile (fun x : Int => toString x) [sampleEntry] okEnv emptyWorld).media.albums
      = [⟨0, "Download", [⟨0, "file:///docs/geolocation_1970-01-01T00-00-00.000Z.txt"⟩]⟩] := by
  constructor
  · obtain ⟨_, album', h1, _, _, _, h5⟩ :=
      (saveLocationToFile_album (fun x : Int => toString x) [sampleEntry] okEnv downloadWorld
        (by decide) rfl rfl rfl rfl).1 ⟨1, "Download", [⟨0, "file:///old.txt"⟩]⟩ (by decide)
    refine ⟨album', h1, ?_⟩
    rw [h5 rfl]
    decide
  · rw [((saveLocationToFile_album (fun x : Int => toString x) [sampleEntry] okEnv emptyWorld
      (by decide) rfl rfl rfl rfl).2 (by decide) rfl).1]
    decide

/-! ## The export text -/

theorem locationBlock_eq_unlines {ν : Type} (numberToString : ν → String) (index : Nat)
    (loc : LocationEntry ν) :
    locationBlock numberToString index loc
      = unlines (exportBlockLines numberToString (index + 1) loc) := by
  have h1 : "):\n" = "):" ++ "\n" := by decide
  have h2 : " meters\n" = " meters" ++ "\n" := by decide
  have h3 : "------------------------------\n" = "------------------------------" ++ "\n" := by
    decide
  simp only [locationBlock, unlines, exportBlockLines, List.map, String.join, List.foldl, h1, h2,
    h3, String.append_assoc, String.empty_append]

/-- C1. The export text of a history of `n ≥ 1` entries is `n` blocks joined in
history order: block `k` (counted from 1) is the eight lines of the export
format, numbered `k` and filled from entry `k`, a `null` field written "null". -/
theorem locationText_blocks {ν : Type} (numberToString : ν → String)
    (locationHistory : List (LocationEntry ν)) (_hn : 1 ≤ locationHistory.length) :
    ∃ blocks : List String,
      blocks.length = locationHistory.length ∧
      (∀ k (hk : k < locationHistory.length),
        blocks[k]? = some (unlines
          (exportBlockLines numberToString (k + 1) (locationHistory.get ⟨k, hk⟩)))) ∧
      locationText numberToString locationHistory = "\n".intercalate blocks ∧
      (JSField.null : JSField ν).render numberToString = "null" := by
  refine ⟨locationHistory.mapIdx (fun index loc => locationBlock numberToString index loc),
    by simp, ?_, rfl, rfl⟩
  intro k hk
  simp [locationBlock_eq_unlines, List.getElem?_eq_getElem hk]

set_option maxRecDepth 100000 in
theorem locationText_blocks_witness :
    locationText (fun x : Int => toString x) [sampleEntry, sampleEntry] =
      "Location #1 (1970-01-01T00:00:00.000Z):\nLatitude: 52\nLongitude: 13\nAltitude: null\n" ++
      "Accuracy: 5 meters\nSpeed: 0\nHeading: null\n------------------------------\n" ++ "\n" ++
      "Location #2 (1970-01-01T00:00:00.000Z):\nLatitude: 52\nLongitude: 13\nAltitude: null\n" ++
      "Accuracy: 5 meters\nSpeed: 0\nHeading: null\n------------------------------\n" := by
  obtain ⟨blocks, hlen, hk, htext, _⟩ :=
    locationText_blocks (fun x : Int => toString x) [sampleEntry, sampleEntry] (by decide)
  have h0 := hk 0 (by decide)
  have h1 := hk 1 (by decide)
  match blocks, hlen, h0, h1, htext with
  | [b0, b1], _, h0, h1, htext =>
    simp only [List.getElem?_cons_zero, List.getElem?_cons_succ, Option.some.injEq] at h0 h1
    rw [htext, h0, h1]
    decide

/-! ## The clock: the fields of a time value -/

theorem yearSearch_spec (day : Int) :
    ∀ (fuel : Nat) (y : Int), DayFromYear (y - fuel) ≤ day → day < DayFromYear (y + 1) →
      DayFromYear (yearSearch fuel y day) ≤ day ∧
      day < DayFromYear (yearSearch fuel y day + 1) ∧
      y - fuel ≤ yearSearch fuel y day ∧ yearSearch fuel y day ≤ y := by
  intro fuel
  induction fuel with
  | zero =>
    intro y hlo hhi
    simp only [yearSearch]
    refine ⟨by simpa using hlo, hhi, by simp, le_refl _⟩
  | succ n ih =>
    intro y hlo hhi
    simp only [yearSearch]
    split
    · rename_i h
      refine ⟨h, hhi, ?_, le_refl _⟩
      push_cast
      omega
    · rename_i h
      have hlo' : DayFromYear (y - 1 - (n : Int)) ≤ day := by
        have : y - 1 - (n : Int) = y - ((n + 1 : Nat) : Int) := by push_cast; ring
        rw [this]; exact hlo
      have hhi' : day < DayFromYear (y - 1 + 1) := by
        have : y - 1 + 1 = y := by ring
        rw [this]; exact lt_of_not_le h
      obtain ⟨h1, h2, h3, h4⟩ := ih (y - 1) hlo' hhi'
      refine ⟨h1, h2, ?_, ?_⟩
      · push_cast; omega
      · omega

theorem yearLo_le_yearHi (day : Int) : yearLo day ≤ yearHi day := by
  unfold yearLo yearHi; split <;> omega

theorem dayFromYear_yearLo (day : Int) : DayFromYear (yearLo day) ≤ day := by
  unfold yearLo DayFromYear; split <;> omega

theorem dayFromYear_yearHi (day : Int) : day < DayFromYear (yearHi day + 1) := by
  unfold yearHi DayFromYear; split <;> omega

theorem dayFromYear_succ (y : Int) : DayFromYear (y + 1) = DayFromYear y + 365 + leapDays y := by
  unfold DayFromYear leapDays; split_ifs <;> omega

theorem leapDays_range (y : Int) : 0 ≤ leapDays y ∧ leapDays y ≤ 1 := by
  unfold leapDays; split_ifs <;> omega

/-- The year of a time value is the largest year that starts on or before its
day, and lies between the two estimates. -/
theorem yearFromTime_spec (t : Int) :
    DayFromYear (YearFromTime t) ≤ Day t ∧ Day t < DayFromYear (YearFromTime t + 1) ∧
    yearLo (Day t) ≤ YearFromTime t ∧ YearFromTime t ≤ yearHi (Day t) := by
  have hle := yearLo_le_yearHi (Day t)
  have hfuel : ((yearHi (Day t) - yearLo (Day t)).toNat : Int) = yearHi (Day t) - yearLo (Day t) :=
    Int.toNat_of_nonneg (by omega)
  have hlo : DayFromYear (yearHi (Day t) - ((yearHi (Day t) - yearLo (Day t)).toNat : Int))
      ≤ Day t := by
    rw [hfuel]
    have : yearHi (Day t) - (yearHi (Day t) - yearLo (Day t)) = yearLo (Day t) := by ring
    rw [this]; exact dayFromYear_yearLo _
  obtain ⟨h1, h2, h3, h4⟩ := yearSearch_spec (Day t) _ _ hlo (dayFromYear_yearHi _)
  refine ⟨h1, h2, ?_, h4⟩
  unfold YearFromTime
  omega

theorem dayWithinYear_range (t : Int) :
    0 ≤ DayWithinYear t ∧ DayWithinYear t < 365 + InLeapYear t := by
  obtain ⟨h1, h2, _, _⟩ := yearFromTime_spec t
  rw [dayFromYear_succ] at h2
  unfold DayWithinYear InLeapYear
  omega

theorem yearFromTime_range (t : Int) (ht : validTime t) :
    -999999 ≤ YearFromTime t ∧ YearFromTime t ≤ 999999 := by
  obtain ⟨_, _, h3, h4⟩ := yearFromTime_spec t
  unfold validTime at ht
  unfold yearLo at h3
  unfold yearHi at h4
  unfold Day msPerDay at h3 h4
  split at h3 <;> split at h4 <;> omega

theorem monthOfDay_cases (d leap : Int) :
    (monthOfDay d leap = 0 ∧ d < 31) ∨
    (monthOfDay d leap = 1 ∧ 31 ≤ d ∧ d < 59 + leap) ∨
    (monthOfDay d leap = 2 ∧ 59 + leap ≤ d ∧ d < 90 + leap) ∨
    (monthOfDay d leap = 3 ∧ 90 + leap ≤ d ∧ d < 120 + leap) ∨
    (monthOfDay d leap = 4 ∧ 120 + leap ≤ d ∧ d < 151 + leap) ∨
    (monthOfDay d leap = 5 ∧ 151 + leap ≤ d ∧ d < 181 + leap) ∨
    (monthOfDay d leap = 6 ∧ 181 + leap ≤ d ∧ d < 212 + leap) ∨
    (monthOfDay d leap = 7 ∧ 212 + leap ≤ d ∧ d < 243 + leap) ∨
    (monthOfDay d leap = 8 ∧ 243 + leap ≤ d ∧ d < 273 + leap) ∨
    (monthOfDay d leap = 9 ∧ 273 + leap ≤ d ∧ d < 304 + leap) ∨
    (monthOfDay d leap = 10 ∧ 304 + leap ≤ d ∧ d < 334 + leap) ∨
    (monthOfDay d leap = 11 ∧ 334 + leap ≤ d) := by
  unfold monthOfDay
  by_cases h1 : d < 31
  · rw [if_pos h1]; simp; omega
  rw [if_neg h1]
  by_cases h2 : d < 59 + leap
  · rw [if_pos h2]; simp; omega
  rw [if_neg h2]
  by_cases h3 : d < 90 + leap
  · rw [if_pos h3]; simp; omega
  rw [if_neg h3]
  by_cases h4 : d < 120 + leap
  · rw [if_pos h4]; simp; omega
  rw [if_neg h4]
  by_cases h5 : d < 151 + leap
  · rw [if_pos h5]; simp; omega
  rw [if_neg h5]
  by_cases h6 : d < 181 + leap
  · rw [if_pos h6]; simp; omega
  rw [if_neg h6]
  by_cases h7 : d < 212 + leap
  · rw [if_pos h7]; simp; omega
  rw [if_neg h7]
  by_cases h8 : d < 243 + leap
  · rw [if_pos h8]; simp; omega
  rw [if_neg h8]
  by_cases h9 : d < 273 + leap
  · rw [if_pos h9]; simp; omega
  rw [if_neg h9]
  by_cases h10 : d < 304 + leap
  · rw [if_pos h10]; simp; omega
  rw [if_neg h10]
  by_cases h11 : d < 334 + leap
  · rw [if_pos h11]; simp; omega
  rw [if_neg h11]
  simp; omega

theorem monthOfDay_range (d leap : Int) : 0 ≤ monthOfDay d leap ∧ monthOfDay d leap ≤ 11 := by
  rcases monthOfDay_cases d leap with h | h | h | h | h | h | h | h | h | h | h | h <;>
    (rw [h.1]; omega)

theorem dateOfDay_range (d leap : Int) (hl0 : 0 ≤ leap) (hl1 : leap ≤ 1) (hd0 : 0 ≤ d)
    (hd1 : d < 365 + leap) : 1 ≤ dateOfDay d leap ∧ dateOfDay d leap ≤ 31 := by
  unfold dateOfDay
  rcases monthOfDay_cases d leap with h | h | h | h | h | h | h | h | h | h | h | h <;>
    (rw [h.1]; simp only []; omega)

theorem day_of_month_date (d₁ d₂ leap : Int) (hm : monthOfDay d₁ leap = monthOfDay d₂ leap)
    (hd : dateOfDay d₁ leap = dateOfDay d₂ leap) : d₁ = d₂ := by
  unfold dateOfDay at hd
  rw [← hm] at hd
  rcases monthOfDay_cases d₁ leap with h | h | h | h | h | h | h | h | h | h | h | h <;>
    (rw [h.1] at hd; simp only [] at hd; omega)

/-! ## The clock: digits and the shape of the ISO string -/

theorem digitChar_toNat (d : Nat) : (digitChar d).toNat = 48 + d % 10 := by
  have h : d % 10 < 10 := Nat.mod_lt _ (by decide)
  unfold digitChar
  generalize d % 10 = k at h
  interval_cases k <;> rfl

theorem digitChar_inj {a b : Nat} (h : digitChar a = digitChar b) : a % 10 = b % 10 := by
  have := congrArg Char.toNat h
  rw [digitChar_toNat, digitChar_toNat] at this
  omega

theorem colonToHyphen_digitChar (d : Nat) : colonToHyphen (digitChar d) = digitChar d := by
  unfold colonToHyphen
  rw [if_neg]
  intro h
  have := congrArg Char.toNat h
  rw [digitChar_toNat] at this
  have h58 : (':' : Char).toNat = 58 := rfl
  rw [h58] at this
  omega

theorem colonToHyphen_ne_colon (c : Char) : colonToHyphen c ≠ ':' := by
  unfold colonToHyphen
  split
  · decide
  · assumption

theorem map_colonToHyphen_yearChars (y : Int) :
    (yearChars y).map colonToHyphen = yearChars y := by
  unfold yearChars
  split
  · simp [pad4, colonToHyphen_digitChar]
  · have h1 : colonToHyphen '-' = '-' := by decide
    have h2 : colonToHyphen '+' = '+' := by decide
    split <;> simp [pad6, colonToHyphen_digitChar, h1, h2]

/-- The characters of the ISO string after the replacement: the two colons of
the time of day have become hyphens, nothing else has changed. -/
theorem map_colonToHyphen_isoChars (t : Int) :
    (isoChars t).map colonToHyphen =
      yearChars (YearFromTime t) ++
        ('-' :: pad2 (MonthFromTime t + 1).toNat ++
        ('-' :: pad2 (DateFromTime t).toNat ++
        ('T' :: pad2 (HourFromTime t).toNat ++
        ('-' :: pad2 (MinFromTime t).toNat ++
        ('-' :: pad2 (SecFromTime t).toNat ++
        ('.' :: pad3 (msFromTime t).toNat ++ ['Z'])))))) := by
  have h1 : colonToHyphen '-' = '-' := by decide
  have h2 : colonToHyphen 'T' = 'T' := by decide
  have h3 : colonToHyphen ':' = '-' := by decide
  have h4 : colonToHyphen '.' = '.' := by decide
  have h5 : colonToHyphen 'Z' = 'Z' := by decide
  simp [isoChars, map_colonToHyphen_yearChars, pad2, pad3, colonToHyphen_digitChar, h1, h2, h3,
    h4, h5]

theorem fileName_data (now : Int) :
    (fileName now).data
      = "geolocation_".data ++ (isoChars now).map colonToHyphen ++ ".txt".data := by
  simp [fileName, replaceColons, toISOString, String.data_append]

/-- C7. The export file name is "geolocation_", the ISO timestamp of the instant
with its two colons replaced by hyphens, and ".txt"; it contains no colon. -/
theorem fileName_no_colon (now : Int) :
    ':' ∉ (fileName now).data ∧
    (fileName now).data =
      "geolocation_".data ++
        (yearChars (YearFromTime now) ++
          ('-' :: pad2 (MonthFromTime now + 1).toNat ++
          ('-' :: pad2 (DateFromTime now).toNat ++
          ('T' :: pad2 (HourFromTime now).toNat ++
          ('-' :: pad2 (MinFromTime now).toNat ++
          ('-' :: pad2 (SecFromTime now).toNat ++
          ('.' :: pad3 (msFromTime now).toNat ++ ['Z']))))))) ++ ".txt".data ∧
    fileName now = "geolocation_" ++ replaceColons (toISOString now) ++ ".txt" ∧
    ∀ s : String, ':' ∉ (replaceColons s).data := by
  have hmap : ∀ l : List Char, ':' ∉ l.map colonToHyphen := by
    intro l h
    obtain ⟨c, _, hc⟩ := List.mem_map.mp h
    exact colonToHyphen_ne_colon c hc
  refine ⟨?_, ?_, rfl, fun s => hmap s.data⟩
  · rw [fileName_data]
    intro h
    rcases List.mem_append.mp h with h | h
    · rcases List.mem_append.mp h with h | h
      · revert h; decide
      · exact hmap _ h
    · revert h; decide
  · rw [fileName_data, map_colonToHyphen_isoChars]

/-! ## The clock: distinct instants give distinct names -/

theorem pad2_inj {a b : Nat} (ha : a < 100) (hb : b < 100) (h : pad2 a = pad2 b) : a = b := by
  simp only [pad2, List.cons.injEq, and_true] at h
  have h1 := digitChar_inj h.1
  have h2 := digitChar_inj h.2
  omega

theorem pad3_inj {a b : Nat} (ha : a < 1000) (hb : b < 1000) (h : pad3 a = pad3 b) : a = b := by
  simp only [pad3, List.cons.injEq, and_true] at h
  have h1 := digitChar_inj h.1
  have h2 := digitChar_inj h.2.1
  have h3 := digitChar_inj h.2.2
  omega

theorem pad4_inj {a b : Nat} (ha : a < 10000) (hb : b < 10000) (h : pad4 a = pad4 b) :
    a = b := by
  simp only [pad4, List.cons.injEq, and_true] at h
  have h1 := digitChar_inj h.1
  have h2 := digitChar_inj h.2.1
  have h3 := digitChar_inj h.2.2.1
  have h4 := digitChar_inj h.2.2.2
  omega

theorem pad6_inj {a b : Nat} (ha : a < 1000000) (hb : b < 1000000) (h : pad6 a = pad6 b) :
    a = b := by
  simp only [pad6, List.cons.injEq, and_true] at h
  have h1 := digitChar_inj h.1
  have h2 := digitChar_inj h.2.1
  have h3 := digitChar_inj h.2.2.1
  have h4 := digitChar_inj h.2.2.2.1
  have h5 := digitChar_inj h.2.2.2.2.1
  have h6 := digitChar_inj h.2.2.2.2.2
  omega

theorem yearChars_length (y : Int) :
    (yearChars y).length = if 0 ≤ y ∧ y ≤ 9999 then 4 else 7 := by
  unfold yearChars
  split <;> simp [pad4, pad6]

theorem yearChars_inj {y₁ y₂ : Int} (h₁ : -999999 ≤ y₁ ∧ y₁ ≤ 999999)
    (h₂ : -999999 ≤ y₂ ∧ y₂ ≤ 999999) (h : yearChars y₁ = yearChars y₂) : y₁ = y₂ := by
  have hlen := congrArg List.length h
  rw [yearChars_length, yearChars_length] at hlen
  unfold yearChars at h
  by_cases c₁ : 0 ≤ y₁ ∧ y₁ ≤ 9999
  · by_cases c₂ : 0 ≤ y₂ ∧ y₂ ≤ 9999
    · rw [if_pos c₁, if_pos c₂] at h
      have := pad4_inj (by omega) (by omega) h
      omega
    · rw [if_pos c₁, if_neg c₂] at hlen
      omega
  · by_cases c₂ : 0 ≤ y₂ ∧ y₂ ≤ 9999
    · rw [if_neg c₁, if_pos c₂] at hlen
      omega
    · rw [if_neg c₁, if_neg c₂] at h
      simp only [List.cons.injEq] at h
      obtain ⟨hs, hp⟩ := h
      have habs := pad6_inj (by omega) (by omega) hp
      by_cases n₁ : y₁ < 0
      · by_cases n₂ : y₂ < 0
        · omega
        · rw [if_pos n₁, if_neg n₂] at hs
          exact absurd hs (by decide)
      · by_cases n₂ : y₂ < 0
        · rw [if_neg n₁, if_pos n₂] at hs
          exact absurd hs (by decide)
        · omega

/-- The fields written into the ISO string determine the time value. -/
theorem time_of_fields {t₁ t₂ : Int}
    (hy : YearFromTime t₁ = YearFromTime t₂) (hmo : MonthFromTime t₁ = MonthFromTime t₂)
    (hda : DateFromTime t₁ = DateFromTime t₂) (hh : HourFromTime t₁ = HourFromTime t₂)
    (hmi : MinFromTime t₁ = MinFromTime t₂) (hs : SecFromTime t₁ = SecFromTime t₂)
    (hms : msFromTime t₁ = msFromTime t₂) : t₁ = t₂ := by
  have hleap : InLeapYear t₁ = InLeapYear t₂ := by unfold InLeapYear; rw [hy]
  unfold MonthFromTime at hmo
  unfold DateFromTime at hda
  rw [hleap] at hmo hda
  have hd := day_of_month_date _ _ _ hmo hda
  unfold DayWithinYear at hd
  rw [hy] at hd
  have hday : Day t₁ = Day t₂ := by omega
  unfold Day msPerDay at hday
  unfold HourFromTime at hh
  unfold MinFromTime at hmi
  unfold SecFromTime at hs
  unfold msFromTime at hms
  omega

theorem field_of_pad2 {x y : Int} (hx : 0 ≤ x ∧ x < 100) (hy : 0 ≤ y ∧ y < 100)
    (h : pad2 x.toNat = pad2 y.toNat) : x = y := by
  have := pad2_inj (by omega) (by omega) h
  omega

theorem field_of_pad3 {x y : Int} (hx : 0 ≤ x ∧ x < 1000) (hy : 0 ≤ y ∧ y < 1000)
    (h : pad3 x.toNat = pad3 y.toNat) : x = y := by
  have := pad3_inj (by omega) (by omega) h
  omega

theorem monthFromTime_range (t : Int) : 0 ≤ MonthFromTime t + 1 ∧ MonthFromTime t + 1 < 100 := by
  have h := monthOfDay_range (DayWithinYear t) (InLeapYear t)
  unfold MonthFromTime
  omega

theorem dateFromTime_range (t : Int) : 0 ≤ DateFromTime t ∧ DateFromTime t < 100 := by
  have hl := leapDays_range (YearFromTime t)
  have hw := dayWithinYear_range t
  have h := dateOfDay_range (DayWithinYear t) (InLeapYear t) hl.1 hl.2 hw.1 hw.2
  unfold DateFromTime
  omega

theorem hourFromTime_range (t : Int) : 0 ≤ HourFromTime t ∧ HourFromTime t < 100 := by
  unfold HourFromTime; omega

theorem minFromTime_range (t : Int) : 0 ≤ MinFromTime t ∧ MinFromTime t < 100 := by
  unfold MinFromTime; omega

theorem secFromTime_range (t : Int) : 0 ≤ SecFromTime t ∧ SecFromTime t < 100 := by
  unfold SecFromTime; omega

theorem msFromTime_range (t : Int) : 0 ≤ msFromTime t ∧ msFromTime t < 1000 := by
  unfold msFromTime; omega

/-- On valid time values the ISO string, also after the replacement of its
colons, determines the time value. -/
theorem isoChars_replaced_inj {t₁ t₂ : Int} (h₁ : validTime t₁) (h₂ : validTime t₂)
    (h : (isoChars t₁).map colonToHyphen = (isoChars t₂).map colonToHyphen) : t₁ = t₂ := by
  rw [map_colonToHyphen_isoChars, map_colonToHyphen_isoChars] at h
  have hlen := congrArg List.length h
  simp only [List.length_append, List.length_cons, pad2, pad3, List.length_nil] at hlen
  obtain ⟨hyear, hrest⟩ := List.append_inj h (by omega)
  have hy := yearChars_inj (yearFromTime_range t₁ h₁) (yearFromTime_range t₂ h₂) hyear
  have hrest := List.tail_eq_of_cons_eq hrest
  obtain ⟨hmo, hrest⟩ := List.append_inj hrest (by simp [pad2])
  have hrest := List.tail_eq_of_cons_eq hrest
  obtain ⟨hda, hrest⟩ := List.append_inj hrest (by simp [pad2])
  have hrest := List.tail_eq_of_cons_eq hrest
  obtain ⟨hh, hrest⟩ := List.append_inj hrest (by simp [pad2])
  have hrest := List.tail_eq_of_cons_eq hrest
  obtain ⟨hmi, hrest⟩ := List.append_inj hrest (by simp [pad2])
  have hrest := List.tail_eq_of_cons_eq hrest
  obtain ⟨hs, hrest⟩ := List.append_inj hrest (by simp [pad2])
  have hrest := List.tail_eq_of_cons_eq hrest
  obtain ⟨hms, _⟩ := List.append_inj hrest (by simp [pad3])
  have hmo := field_of_pad2 (monthFromTime_range t₁) (monthFromTime_range t₂) hmo
  exact time_of_fields hy (by linarith)
    (field_of_pad2 (dateFromTime_range t₁) (dateFromTime_range t₂) hda)
    (field_of_pad2 (hourFromTime_range t₁) (hourFromTime_range t₂) hh)
    (field_of_pad2 (minFromTime_range t₁) (minFromTime_range t₂) hmi)
    (field_of_pad2 (secFromTime_range t₁) (secFromTime_range t₂) hs)
    (field_of_pad3 (msFromTime_range t₁) (msFromTime_range t₂) hms)

/-- C6. Two distinct valid instants give two distinct export file names: the
replacement of the colons by hyphens makes no two ISO timestamps collide. -/
theorem fileName_injective (t₁ t₂ : Int) (h₁ : validTime t₁) (h₂ : validTime t₂)
    (hne : t₁ ≠ t₂) :
    fileName t₁ ≠ fileName t₂ ∧ toISOString t₁ ≠ toISOString t₂ ∧
      replaceColons (toISOString t₁) ≠ replaceColons (toISOString t₂) := by
  have key : replaceColons (toISOString t₁) ≠ replaceColons (toISOString t₂) := by
    intro h
    have hd := congrArg String.data h
    exact hne (isoChars_replaced_inj h₁ h₂ hd)
  refine ⟨?_, ?_, key⟩
  · intro h
    have hd := congrArg String.data h
    rw [fileName_data, fileName_data] at hd
    have hd := List.append_cancel_left (List.append_cancel_right hd)
    exact hne (isoChars_replaced_inj h₁ h₂ hd)
  · intro h
    exact key (by rw [h])

theorem fileName_injective_witness :
    fileName 0 = "geolocation_1970-01-01T00-00-00.000Z.txt" ∧
    fileName 1709210096789 = "geolocation_2024-02-29T12-34-56.789Z.txt" ∧
    fileName 0 ≠ fileName 1709210096789 :=
  ⟨by decide, by decide,
    (fileName_injective 0 1709210096789 (by decide) (by decide) (by decide)).1⟩


/-! ## Sample values of the clock model -/

theorem toISOString_epoch : toISOString 0 = "1970-01-01T00:00:00.000Z" := by decide

theorem toISOString_before_epoch : toISOString (-1) = "1969-12-31T23:59:59.999Z" := by decide

theorem toISOString_leap_day : toISOString 1709210096789 = "2024-02-29T12:34:56.789Z" := by
  decide

theorem toISOString_latest : toISOString 8640000000000000 = "+275760-09-13T00:00:00.000Z" := by
  decide

theorem toISOString_negative_year :
    toISOString (-62198755200000) = "-000001-01-01T00:00:00.000Z" := by decide

end App
